/-
  Verification of the photon micro-framework (Frank-Mayer/photon)
  against its natural-language specification.

  Shallow embedding of the routing / injection / placeholder-resolution
  core, translated from the TypeScript sources:
    src/DOM/Router.ts          (current Router)
    src/DOM/DomFrame.ts        (current DomFrame, permanent cache)
    src/src/DOM/DomFrame.ts    (legacy DomFrame, last-injected identity)
    src/DOM/Components.ts      (component resolver loop)
    src/DOM/ComponentFactory.ts
    src/DOM/TemplateFactory.ts

  Browser platform primitives (fetch, HTML parsing, history, classList)
  are modelled as oracles / explicit state; promise outcomes are made
  explicit as values.
-/
import Mathlib

namespace Photon

/-! ## Router model (src/DOM/Router.ts)

`Router.setPage(newPage, setState)` (lines 264-332) returns
`new Promise<void>((res) => ...)`.  The executor runs synchronously up
to the `frame.inject` call; the `then` / `catch` continuations run when
the inject promise settles.  We model one `setPage` call as a function
from the router session state (`lastLocation`) and an environment
(sitemap, fallback, the inject oracle, whether some `inject`-event
listener cancels) to the new state together with an ordered trace of
the observable actions of that call.  The promise settles (by
resolving: the executor never throws in this model) iff the trace
contains `Action.resolve`, which stands for the `res()` invocations in
the source.  A recursive `setPage(fallbackSite)` call made from the
`catch` handler is recorded as `Action.fallbackAttempt page` at the
position where the call is made; the callee's promise (and hence its
own `res()`) is distinct from the caller's, so only the marker appears
in the caller's trace, while the callee's state update is threaded
into the returned `lastLocation`. -/

/-- Outcome of the promise returned by `DomFrame.inject`, as seen by
`Router.setPage`'s `then` / `catch` handlers. -/
inductive InjectOutcome where
  | resolved (success : Bool)
  | rejected
deriving DecidableEq, Repr

/-- One observable action performed by a `setPage` call, in order. -/
inductive Action where
  /-- `this.frame.inject(storeLocation)` was invoked. -/
  | injectCall (storeLocation : String)
  /-- `window.history.pushState({pageTitle: page}, ...)`. -/
  | pushHistory (page : String)
  /-- `window.history.replaceState({pageTitle: page}, ...)`. -/
  | replaceHistory (page : String)
  /-- `document.title = this.setWindowTitle(page)`. -/
  | setTitle (page : String)
  /-- `classList.remove(...this.sitemap)`. -/
  | removeClasses
  /-- `classList.add(page)`. -/
  | addClass (page : String)
  /-- `this.linkAnchorsToRouter(this.frame.getHtmlRef())`. -/
  | linkAnchors
  /-- `this.triggerEvent("injected", false, _, page)`. -/
  | eventInjected (page : String)
  /-- the recursive `this.setPage(this.fallbackSite)` call from the
  `catch` handler was made. -/
  | fallbackAttempt (page : String)
  /-- `res()`: the promise of this `setPage` call resolves. -/
  | resolve
deriving DecidableEq, Repr

/-- Environment of a `setPage` call: the router's immutable
configuration plus oracles for the platform behaviour. -/
structure RouterEnv where
  /-- `this.sitemap` (a `Set<string>`; we keep document order). -/
  sitemap : List String
  /-- `this.fallbackSite`. -/
  fallbackSite : String
  /-- `this.ext` (file extension, default `"html"`). -/
  ext : String := "html"
  /-- whether `this.setWindowTitle` was configured. -/
  hasWindowTitle : Bool := false
  /-- outcome of `this.frame.inject(loc)` for a given store location. -/
  injectResult : String → InjectOutcome
  /-- whether some listener of the cancelable `"inject"` event calls
  `ev.preventDefault()` (which invokes the `cancel` callback). -/
  cancelsInject : Bool := false

/-- `Router.pageTitleToStoreLocation` (Router.ts lines 241-243). -/
def storeLocation (env : RouterEnv) (newPage : String) : String :=
  "/content/" ++ newPage ++ "." ++ env.ext

/-- `Router.pushState` (Router.ts lines 343-353): replace when
`lastLocation` is still `null`, push otherwise. -/
def pushStateAction (lastLocation : Option String) (newPage : String) : Action :=
  match lastLocation with
  | none => .replaceHistory newPage
  | some _ => .pushHistory newPage

/-- Body of `Router.setPage` (Router.ts lines 264-332), parameterised
over the recursive `this.setPage(this.fallbackSite)` call
(`fallbackCall`, given the current `lastLocation`, returns the callee's
final state and trace).  Returns the updated `lastLocation` and the
trace of this call. -/
def setPageBody (env : RouterEnv)
    (fallbackCall : Option String → Option String × List Action)
    (lastLocation : Option String) (newPage : String) (setState : Bool) :
    Option String × List Action :=
  -- `triggerEvent("inject", ...)`: a cancelling listener runs `res()`
  -- inside the `cancel` callback and the executor returns.
  if env.cancelsInject then
    (lastLocation, [.resolve])
  else if newPage ∈ env.sitemap then
    -- `this.frame.inject(this.pageTitleToStoreLocation(newPage))`
    match env.injectResult (storeLocation env newPage) with
    | .resolved true =>
        let t0 := if setState ∧ lastLocation ≠ some newPage then
            [pushStateAction lastLocation newPage] else []
        let t1 := if env.hasWindowTitle then [Action.setTitle newPage] else []
        let t2 := if env.sitemap.length > 0 then [Action.removeClasses] else []
        let t3 := if newPage ∈ env.sitemap then [Action.addClass newPage] else []
        (some newPage,
          [Action.injectCall (storeLocation env newPage)] ++ t0 ++ t1 ++ t2 ++ t3
            ++ [.linkAnchors, .eventInjected newPage, .resolve])
    | .resolved false =>
        -- `if (r) {...}` skipped; `res()` still runs.
        (lastLocation, [.injectCall (storeLocation env newPage), .resolve])
    | .rejected =>
        -- `catch`: `console.warn(err)`; maybe retry fallback; `res()`.
        if newPage ≠ env.fallbackSite then
          let sub := fallbackCall lastLocation
          (sub.1, [Action.injectCall (storeLocation env newPage),
                   .fallbackAttempt env.fallbackSite, .resolve])
        else
          (lastLocation, [.injectCall (storeLocation env newPage), .resolve])
  else
    -- `!this.sitemap.has(newPage)` branch (lines 276-290): note the
    -- history push uses the *requested* (invalid) name, the inject of
    -- the fallback is fire-and-forget, and the branch returns without
    -- ever calling `res()`.
    let t0 := if setState ∧ lastLocation ≠ some newPage then
        [pushStateAction lastLocation newPage] else []
    (some env.fallbackSite,
      t0 ++ [Action.injectCall (storeLocation env env.fallbackSite),
             .removeClasses, .linkAnchors, .eventInjected env.fallbackSite])

/-- `Router.setPage` with fuel for the `catch`-handler recursion.  The
callee receives `fallbackSite` as its `newPage`, which makes the source
guard `newPage != this.fallbackSite` false there, so the fuel never
cuts off a recursion the source would perform
(see `setPageBody_fallbackCall_irrelevant`): the `fuel = 0` case is
unreachable from `setPage`. -/
def setPageGo : Nat → RouterEnv → Option String → String → Bool →
    Option String × List Action
  | 0, env, st, page, s =>
      setPageBody env (fun st' => (st', [])) st page s
  | f + 1, env, st, page, s =>
      setPageBody env (fun st' => setPageGo f env st' env.fallbackSite true)
        st page s

/-- `Router.setPage` entry point. -/
def setPage (env : RouterEnv) (lastLocation : Option String)
    (newPage : String) (setState : Bool) : Option String × List Action :=
  setPageGo 1 env lastLocation newPage setState

/-- The promise of a `setPage` call settles (and it can only settle by
resolving: the executor body never throws in this model) iff its trace
contains `res()`. -/
def settles (trace : List Action) : Prop := Action.resolve ∈ trace

instance (trace : List Action) : Decidable (settles trace) := by
  unfold settles; infer_instance

/-- At the only place `setPageBody` uses its `fallbackCall` parameter,
the page argument is `env.fallbackSite`, where the source guard
`newPage != this.fallbackSite` is false: the choice of `fallbackCall`
(and hence the fuel of `setPageGo`) never changes the result, so the
bounded recursion is faithful to the source's unbounded one. -/
theorem setPageBody_fallbackCall_irrelevant
    (g g' : Option String → Option String × List Action) (env : RouterEnv)
    (st : Option String) (setState : Bool) :
    setPageBody env g st env.fallbackSite setState
      = setPageBody env g' st env.fallbackSite setState := by
  unfold setPageBody
  by_cases hc : env.cancelsInject
  · simp [hc]
  · by_cases hm : env.fallbackSite ∈ env.sitemap
    · simp only [hc, hm, if_true, if_false]
      cases env.injectResult (storeLocation env env.fallbackSite) with
      | resolved success => cases success <;> simp
      | rejected => simp
    · simp [hc, hm]

/-! ### Claim C1

The `!this.sitemap.has(newPage)` branch of `setPage` (Router.ts lines
276-290) performs the fallback injection and fires the `injected`
event, but returns from the executor without ever calling `res()`.
So for a page name that is not in the sitemap the returned promise
never settles at all — even though the constructor itself (line 152)
chains `.then(() => this.preloadSubpages())` on exactly such a call. -/

/-- A minimal router configuration: sitemap `{"home"}`, fallback
`"home"`, every injection succeeding, no cancelling listener. -/
def env0 : RouterEnv :=
  { sitemap := ["home"]
    fallbackSite := "home"
    injectResult := fun _ => .resolved true }

/-- C1: the claim fails on the code.  With sitemap `{"home"}` and a
request for the non-member page `"missing"` (either value of
`setState`), the promise returned by `setPage` never settles: the
not-in-sitemap branch runs the whole fallback display path but returns
without calling `res()`. -/
theorem C1_invalid_page_promise_never_settles :
    (setPage env0 none "missing" true).2
        = [.replaceHistory "missing", .injectCall "/content/home.html",
           .removeClasses, .linkAnchors, .eventInjected "home"]
      ∧ ¬ settles (setPage env0 none "missing" true).2
      ∧ ¬ settles (setPage env0 none "missing" false).2 := by
  refine ⟨by decide, by decide, by decide⟩

/-! ### Claim C2

The only place `setPage` retries with the fallback site is the
`catch` handler of the inject promise (Router.ts lines 320-330).  But
`DomFrame.inject` reports every fetch failure by *resolving* `false`
(DomFrame.ts lines 87-130; its documentation: "Returns `true` if
successful, `false` if not"), in which case `setPage`'s `then` handler
runs: `if (r) { ... } res();` — nothing is retried, nothing is even
logged.  The fallback chain is reached only if the inject promise
rejects, which its designed failure paths never do. -/

/-- Router configuration in which the sitemap-valid page `"a"` fails
to inject (the frame resolves `false`, its designed failure signal)
while everything else succeeds. -/
def env2 : RouterEnv :=
  { sitemap := ["a", "home"]
    fallbackSite := "home"
    injectResult := fun loc =>
      if loc = "/content/a.html" then .resolved false else .resolved true }

/-- C2 counterexample: injection of the sitemap-valid page `"a"`
(not the fallback) fails — the frame resolves `false` — yet `setPage`
settles without ever attempting `setPage(fallbackSite)`. -/
theorem C2_counterexample_no_fallback_on_resolved_false :
    env2.injectResult (storeLocation env2 "a") = .resolved false
      ∧ "a" ≠ env2.fallbackSite
      ∧ (setPage env2 (some "home") "a" true).2
          = [.injectCall "/content/a.html", .resolve]
      ∧ Action.fallbackAttempt "home" ∉ (setPage env2 (some "home") "a" true).2 := by
  refine ⟨by decide, by decide, by decide, by decide⟩

/-- C2 as amended: the recursive `setPage(fallbackSite)` attempt
happens (before the caller's promise settles) exactly in the case that
the inject promise *rejects*; when injection fails by resolving
`false`, no fallback is attempted (see the counterexample).  For every
environment without a cancelling listener, state, flag, and
sitemap-valid target distinct from the fallback whose injection
rejects, the trace is precisely: the inject call, then the recursive
fallback attempt, then the resolution of the promise. -/
theorem C2_fallback_attempt_on_rejection (env : RouterEnv)
    (st : Option String) (page : String) (setState : Bool)
    (hc : env.cancelsInject = false) (hm : page ∈ env.sitemap)
    (hf : page ≠ env.fallbackSite)
    (hr : env.injectResult (storeLocation env page) = .rejected) :
    (setPage env st page setState).2
      = [.injectCall (storeLocation env page),
         .fallbackAttempt env.fallbackSite, .resolve] := by
  simp [setPage, setPageGo, setPageBody, hc, hm, hf, hr]

/-- Witness for `C2_fallback_attempt_on_rejection` at a concrete
environment whose valid page `"a"` has a rejecting injection. -/
theorem C2_fallback_attempt_on_rejection_witness :
    ({ sitemap := ["a", "home"], fallbackSite := "home",
       injectResult := fun loc =>
         if loc = "/content/a.html" then .rejected else
           .resolved true } : RouterEnv).cancelsInject = false
    ∧ (setPage
        { sitemap := ["a", "home"], fallbackSite := "home",
          injectResult := fun loc =>
            if loc = "/content/a.html" then .rejected else .resolved true }
        (some "home") "a" true).2
      = [.injectCall "/content/a.html", .fallbackAttempt "home", .resolve] :=
  ⟨by decide,
    C2_fallback_attempt_on_rejection _ (some "home") "a" true (by decide)
      (by decide) (by decide) (by decide)⟩

/-! ## Current DomFrame (src/DOM/DomFrame.ts)

State: the fetch request options, the permanent text cache
(`permaCache`, a `Map<string, string>` from requested content path to
raw response text, populated only by `preload`), and the mount's
content (`root.innerHTML`, a string).  Platform behaviour is an
oracle: the outcome of `fetch` for a URL and the outcome of
`Components.resolveComponents` on a mounted HTML text. -/

/-- `RequestInit.mode` values relevant to the frame. -/
inductive RequestMode where
  | sameOrigin | cors | noCors | navigate
deriving DecidableEq, Repr

/-- The fetch options object (`RequestInit`), with the fields the
frame sets; defaults are the initialiser of `DomFrame.requestOptions`
(DomFrame.ts lines 23-27). -/
structure RequestInit where
  cache : String := "default"
  keepalive : Bool := false
  mode : RequestMode := .sameOrigin
deriving DecidableEq, Repr

/-- Outcome of a `fetch` for one URL: a 2xx response whose `text()`
yields `body`; a 2xx response whose `text()` rejects; a non-2xx
response (`!resp.ok`); or a rejected fetch. -/
inductive FetchOutcome where
  | ok (body : String)
  | okTextFails
  | notOk
  | fetchError
deriving DecidableEq, Repr

/-- One network request issued by the frame, with the options used. -/
structure FetchCall where
  url : String
  options : RequestInit
deriving DecidableEq, Repr

/-- Platform oracle for the frame: base path, fetch outcomes by URL,
and whether `Components.resolveComponents` succeeds on a given mounted
HTML text. -/
structure FrameEnv where
  basePath : String := ""
  fetchResult : String → FetchOutcome
  resolveOk : String → Bool := fun _ => true

/-- `DomFrame` instance state. -/
structure DomFrameState where
  requestOptions : RequestInit := {}
  permaCache : List (String × String) := []
  mount : String := ""
deriving DecidableEq, Repr

/-- JS `Map.get`. -/
def cacheGet (c : List (String × String)) (k : String) : Option String :=
  (c.find? (·.1 == k)).map (·.2)

/-- JS `Map.set`: update in place if present, else append. -/
def cacheSet (c : List (String × String)) (k v : String) :
    List (String × String) :=
  if c.any (·.1 == k) then
    c.map (fun p => if p.1 == k then (k, v) else p)
  else
    c ++ [(k, v)]

/-- Result of one `DomFrame.inject` call: the new frame state, the
boolean the promise resolves with, the network requests issued, and
the `Components.resolveComponents` passes run (recorded by the mounted
HTML they ran over). -/
structure InjectResult where
  state : DomFrameState
  ok : Bool
  fetches : List FetchCall
  resolves : List String
deriving DecidableEq, Repr

/-- `DomFrame.inject` (DomFrame.ts lines 87-130).  On a permanent
cache hit the cached HTML is mounted and resolved without a fetch; on
a miss a fetch is issued: non-success response, fetch rejection or
`text()` rejection resolve `false` without touching the mount; a
successful body is mounted (note: *not* stored into `permaCache`) and
then component-resolved. -/
def inject (env : FrameEnv) (st : DomFrameState) (content : String) :
    InjectResult :=
  match cacheGet st.permaCache content with
  | some html =>
      -- `this.root.innerHTML = this.permaCache.get(content)!` then
      -- `Components.resolveComponents(this.root)`; failure logs and
      -- resolves `false` (mount keeps the cached HTML either way).
      { state := { st with mount := html }, ok := env.resolveOk html,
        fetches := [], resolves := [html] }
  | none =>
      let url := env.basePath ++ content
      let call : FetchCall := { url := url, options := st.requestOptions }
      match env.fetchResult url with
      | .ok html =>
          { state := { st with mount := html }, ok := env.resolveOk html,
            fetches := [call], resolves := [html] }
      | .okTextFails =>
          { state := st, ok := false, fetches := [call], resolves := [] }
      | .notOk =>
          { state := st, ok := false, fetches := [call], resolves := [] }
      | .fetchError =>
          { state := st, ok := false, fetches := [call], resolves := [] }

/-- `DomFrame.preload` (DomFrame.ts lines 63-82): fire-and-forget
fetch that on success stores the text into the permanent cache and
never mounts; all failures are only logged. -/
def preload (env : FrameEnv) (st : DomFrameState) (content : String) :
    DomFrameState × List FetchCall :=
  let url := env.basePath ++ content
  let call : FetchCall := { url := url, options := st.requestOptions }
  match env.fetchResult url with
  | .ok html => ({ st with permaCache := cacheSet st.permaCache content html }, [call])
  | .okTextFails => (st, [call])
  | .notOk => (st, [call])
  | .fetchError => (st, [call])

/-- `DomFrame.setRequestOptions` (DomFrame.ts lines 50-52):
`this.requestOptions = { ...newOptions, mode: "same-origin" }`. -/
def setRequestOptions (st : DomFrameState) (newOptions : RequestInit) :
    DomFrameState :=
  { st with requestOptions := { newOptions with mode := .sameOrigin } }

/-- `DomFrame.overwrite` (DomFrame.ts lines 136-138). -/
def overwrite (st : DomFrameState) (innerHTML : String) : DomFrameState :=
  { st with mount := innerHTML }

/-- `DomFrame.clear` (DomFrame.ts lines 143-145). -/
def clear (st : DomFrameState) : DomFrameState :=
  { st with mount := "" }

/-- The operations of a `DomFrame` that can touch its state (the
remaining methods are read-only wrappers around the element). -/
inductive FrameOp where
  | inject (content : String)
  | preload (content : String)
  | setRequestOptions (newOptions : RequestInit)
  | overwrite (innerHTML : String)
  | clear
deriving DecidableEq, Repr

/-- One frame operation: next state and the network requests issued. -/
def frameStep (env : FrameEnv) (st : DomFrameState) :
    FrameOp → DomFrameState × List FetchCall
  | .inject content =>
      let r := inject env st content
      (r.state, r.fetches)
  | .preload content => preload env st content
  | .setRequestOptions o => (setRequestOptions st o, [])
  | .overwrite html => (overwrite st html, [])
  | .clear => (clear st, [])

/-- Run a sequence of frame operations from a state, collecting every
network request issued along the way. -/
def frameRun (env : FrameEnv) (st : DomFrameState) :
    List FrameOp → DomFrameState × List FetchCall
  | [] => (st, [])
  | op :: ops =>
      let (st', calls) := frameStep env st op
      let (st'', rest) := frameRun env st' ops
      (st'', calls ++ rest)

/-! ### Claim C8 -/

/-- C8: on a permanent-cache miss, if the fetch returns a non-success
response or the fetch itself rejects, `inject` resolves `false` and
leaves the frame state — in particular the mount's content — exactly
as it was before the call. -/
theorem C8_inject_failure_resolves_false_mount_unchanged
    (env : FrameEnv) (st : DomFrameState) (content : String)
    (hmiss : cacheGet st.permaCache content = none)
    (hfail : env.fetchResult (env.basePath ++ content) = .notOk
      ∨ env.fetchResult (env.basePath ++ content) = .fetchError) :
    (inject env st content).ok = false
      ∧ (inject env st content).state = st := by
  rcases hfail with h | h <;> simp [inject, hmiss, h]

/-- Witness for `C8_inject_failure_resolves_false_mount_unchanged`:
a frame with mounted content `"old"` and an empty permanent cache,
injecting a path whose fetch returns a non-success response. -/
theorem C8_witness :
    (inject { fetchResult := fun _ => .notOk }
        { mount := "old" } "/content/a.html").ok = false
      ∧ (inject { fetchResult := fun _ => .notOk }
        { mount := "old" } "/content/a.html").state
          = { mount := "old" } :=
  C8_inject_failure_resolves_false_mount_unchanged
    { fetchResult := fun _ => .notOk } { mount := "old" }
    "/content/a.html" (by decide) (Or.inl (by decide))

/-! ### Claim C10 -/

/-- The same-origin invariant: `requestOptions.mode` is `same-origin`
after construction (DomFrame.ts lines 23-27), `setRequestOptions`
overrides whatever mode the caller passes (lines 50-52), and no other
operation writes `requestOptions`; a step from an invariant state
issues only same-origin fetches. -/
theorem frameStep_sameOrigin (env : FrameEnv) (st : DomFrameState)
    (op : FrameOp) (h : st.requestOptions.mode = .sameOrigin) :
    (frameStep env st op).1.requestOptions.mode = .sameOrigin
      ∧ ∀ c ∈ (frameStep env st op).2, c.options.mode = .sameOrigin := by
  cases op with
  | inject content =>
      unfold frameStep inject
      cases hc : cacheGet st.permaCache content with
      | some html => simp [hc, h]
      | none =>
          cases hf : env.fetchResult (env.basePath ++ content) <;>
            simp [hc, hf, h]
  | preload content =>
      unfold frameStep preload
      cases hf : env.fetchResult (env.basePath ++ content) <;>
        simp [hf, h]
  | setRequestOptions o => simp [frameStep, setRequestOptions]
  | overwrite html => simpa [frameStep, overwrite] using h
  | clear => simpa [frameStep, clear] using h

/-- C10: for every fetch-oracle environment and every sequence of
frame operations — including `setRequestOptions` calls whose argument
carries any other mode — the frame state reached from construction has
`requestOptions.mode = "same-origin"`, and every network request
issued by `inject` or `preload` along the run was made with
same-origin mode. -/
theorem C10_sameOrigin_invariant (env : FrameEnv) (ops : List FrameOp) :
    (frameRun env {} ops).1.requestOptions.mode = .sameOrigin
      ∧ ∀ c ∈ (frameRun env {} ops).2, c.options.mode = .sameOrigin := by
  suffices h : ∀ (st : DomFrameState) (ops : List FrameOp),
      st.requestOptions.mode = .sameOrigin →
      (frameRun env st ops).1.requestOptions.mode = .sameOrigin
        ∧ ∀ c ∈ (frameRun env st ops).2, c.options.mode = .sameOrigin from
    h {} ops rfl
  intro st ops
  induction ops generalizing st with
  | nil => intro h; exact ⟨h, by simp [frameRun]⟩
  | cons op ops ih =>
      intro h
      obtain ⟨h1, h2⟩ := frameStep_sameOrigin env st op h
      obtain ⟨h3, h4⟩ := ih (frameStep env st op).1 h1
      refine ⟨by simpa [frameRun] using h3, ?_⟩
      intro c hc
      simp only [frameRun, List.mem_append] at hc
      rcases hc with hc | hc
      · exact h2 c hc
      · exact h4 c hc

/-! ## Legacy DomFrame (src/src/DOM/DomFrame.ts)

The repository also contains an older `DomFrame` in which `inject`
keeps the last-injected identity in `this.current` and short-circuits
a repeated injection of the same content (lines 44-53).  The current
`DomFrame` (src/DOM/DomFrame.ts) has no `current` field; its `inject`
consults only the permanent cache, which `inject` itself never
populates.  (The transient `"loading"` CSS class that the legacy
`inject` adds and removes again on every path is omitted — it is
restored before the promise settles in all cases.) -/

/-- Legacy `DomFrame` instance state: last-injected identity and the
mount's content.  (`requestOptions` is carried for the fetch call.) -/
structure OldDomFrameState where
  requestOptions : RequestInit := {}
  current : Option String := none
  mount : String := ""
deriving DecidableEq, Repr

/-- Result of one legacy `inject` call (string overload). -/
structure OldInjectResult where
  state : OldDomFrameState
  ok : Bool
  fetches : List FetchCall
  resolves : List String
deriving DecidableEq, Repr

/-- Legacy `DomFrame.inject`, string case (src/src/DOM/DomFrame.ts
lines 44-86): if `content == this.current`, resolve `true` at once —
no fetch, no component resolution; otherwise fetch, mount on success,
record `this.current = content`, and run the component resolver. -/
def injectOld (env : FrameEnv) (st : OldDomFrameState) (content : String) :
    OldInjectResult :=
  if st.current = some content then
    { state := st, ok := true, fetches := [], resolves := [] }
  else
    let url := env.basePath ++ content
    let call : FetchCall := { url := url, options := st.requestOptions }
    match env.fetchResult url with
    | .ok html =>
        { state := { st with mount := html, current := some content },
          ok := env.resolveOk html, fetches := [call], resolves := [html] }
    | .okTextFails =>
        { state := st, ok := false, fetches := [call], resolves := [] }
    | .notOk =>
        { state := st, ok := false, fetches := [call], resolves := [] }
    | .fetchError =>
        { state := st, ok := false, fetches := [call], resolves := [] }

/-! ### Claim C3 -/

/-- Environment for the repeat-injection experiment: every fetch
succeeds with body `"X"`, component resolution succeeds. -/
def env3 : FrameEnv :=
  { fetchResult := fun _ => .ok "X" }

/-- C3 counterexample: on the current `DomFrame` there is no
last-injected-identity comparison.  Starting from a fresh frame,
injecting `"/content/a.html"` succeeds and mounts `"X"`; injecting the
very same path again from the resulting state issues a second network
request and a second component-resolution pass (the permanent cache
was not populated by the first `inject`, and nothing compares the
request against the already-mounted content). -/
theorem C3_counterexample_repeat_inject_fetches_again :
    (inject env3 {} "/content/a.html").state.mount = "X"
      ∧ (inject env3 (inject env3 {} "/content/a.html").state
          "/content/a.html").fetches
        = [{ url := "/content/a.html", options := {} }]
      ∧ (inject env3 (inject env3 {} "/content/a.html").state
          "/content/a.html").resolves = ["X"] := by
  refine ⟨by decide, by decide, by decide⟩

/-- C3 as amended: the identity short-circuit exists only in the
legacy frame (src/src/DOM/DomFrame.ts).  There, whenever the requested
content equals the last-injected identity `current`, `inject` resolves
`true` immediately: no network request, no re-resolution, state
untouched.  On the current frame a repeated injection fetches again
unless the path is in the permanent cache, which only `preload`
populates (see the counterexample). -/
theorem C3_legacy_inject_short_circuit (env : FrameEnv)
    (st : OldDomFrameState) (content : String)
    (h : st.current = some content) :
    injectOld env st content
      = { state := st, ok := true, fetches := [], resolves := [] } := by
  simp [injectOld, h]

/-- Witness for `C3_legacy_inject_short_circuit`: a legacy frame whose
current content is `"/content/a.html"`, injected with the same path. -/
theorem C3_legacy_inject_short_circuit_witness :
    injectOld env3 { current := some "/content/a.html", mount := "X" }
        "/content/a.html"
      = { state := { current := some "/content/a.html", mount := "X" },
          ok := true, fetches := [], resolves := [] } :=
  C3_legacy_inject_short_circuit env3
    { current := some "/content/a.html", mount := "X" }
    "/content/a.html" (by decide)

/-! ## HTML node model

The factories manipulate parsed DOM trees.  We model a node as a tag
with an ordered attribute list and children, a text node, or a chunk
of markup inserted verbatim through an `innerHTML` assignment
(`raw` — the source trusts this content and never re-processes it).
Browser HTML parsing/serialisation is a platform API; fragments appear
here already parsed, and serialisation (`serializeList`, used for the
`innerHTML` read that feeds the `content` variable) writes tags and
attributes back without entity escaping, which the claims at issue do
not exercise. -/

inductive HNode where
  | elem (tag : String) (attrs : List (String × String)) (children : List HNode)
  | text (s : String)
  | raw (s : String)
deriving Repr

mutual

/-- Structural equality of nodes (DOM identity is not needed by the
claims below: the node lists we erase from are throwaway wrappers). -/
def HNode.deq : (a b : HNode) → Decidable (a = b)
  | .elem t1 a1 c1, .elem t2 a2 c2 =>
      match String.decEq t1 t2 with
      | .isFalse h => .isFalse (by intro hh; cases hh; exact h rfl)
      | .isTrue h1 =>
        match (inferInstanceAs (DecidableEq (List (String × String)))) a1 a2 with
        | .isFalse h => .isFalse (by intro hh; cases hh; exact h rfl)
        | .isTrue h2 =>
          match HNode.deqList c1 c2 with
          | .isTrue h3 => .isTrue (by rw [h1, h2, h3])
          | .isFalse h => .isFalse (by intro hh; cases hh; exact h rfl)
  | .text s1, .text s2 =>
      match String.decEq s1 s2 with
      | .isTrue h => .isTrue (by rw [h])
      | .isFalse h => .isFalse (by intro hh; cases hh; exact h rfl)
  | .raw s1, .raw s2 =>
      match String.decEq s1 s2 with
      | .isTrue h => .isTrue (by rw [h])
      | .isFalse h => .isFalse (by intro hh; cases hh; exact h rfl)
  | .elem _ _ _, .text _ => .isFalse (by intro h; cases h)
  | .elem _ _ _, .raw _ => .isFalse (by intro h; cases h)
  | .text _, .elem _ _ _ => .isFalse (by intro h; cases h)
  | .text _, .raw _ => .isFalse (by intro h; cases h)
  | .raw _, .elem _ _ _ => .isFalse (by intro h; cases h)
  | .raw _, .text _ => .isFalse (by intro h; cases h)

def HNode.deqList : (l m : List HNode) → Decidable (l = m)
  | [], [] => .isTrue rfl
  | [], _ :: _ => .isFalse (by intro h; cases h)
  | _ :: _, [] => .isFalse (by intro h; cases h)
  | a :: l, b :: m =>
      match HNode.deq a b with
      | .isFalse h => .isFalse (by intro hh; cases hh; exact h rfl)
      | .isTrue h1 =>
        match HNode.deqList l m with
        | .isTrue h2 => .isTrue (by rw [h1, h2])
        | .isFalse h => .isFalse (by intro hh; cases hh; exact h rfl)

end

instance : DecidableEq HNode := HNode.deq

/-- `el.attributes` of an element; other nodes have none. -/
def attrsOfNode : HNode → List (String × String)
  | .elem _ attrs _ => attrs
  | _ => []

/-- Whether a node is an element (members of `.children` /
`querySelectorAll` collections). -/
def isElemNode : HNode → Bool
  | .elem _ _ _ => true
  | _ => false

/-- `tagName` (empty for non-elements). -/
def tagOf : HNode → String
  | .elem t _ _ => t
  | _ => ""

def serializeAttrs (attrs : List (String × String)) : String :=
  attrs.foldl (fun s p => s ++ " " ++ p.1 ++ "=\"" ++ p.2 ++ "\"") ""

mutual

/-- `outerHTML` of a node. -/
def serializeNode : HNode → String
  | .text s => s
  | .raw s => s
  | .elem tag attrs children =>
      "<" ++ tag ++ serializeAttrs attrs ++ ">" ++ serializeList children
        ++ "</" ++ tag ++ ">"

/-- `innerHTML`: concatenated serialisation of a child list. -/
def serializeList : List HNode → String
  | [] => ""
  | n :: ns => serializeNode n ++ serializeList ns

end

mutual

/-- All elements of a subtree in document order: the snapshot
`querySelectorAll("*")` takes below a wrapper whose children are the
given list, plus (for `elementsOf`) the root element itself. -/
def elementsOf : HNode → List HNode
  | .text _ => []
  | .raw _ => []
  | .elem t a ch => .elem t a ch :: elementsList ch

def elementsList : List HNode → List HNode
  | [] => []
  | n :: ns => elementsOf n ++ elementsList ns

end

/-! ## ComponentFactory (src/DOM/ComponentFactory.ts)

`resolve(componentEl)` (lines 18-59): build the attribute map from the
placeholder's attributes plus `content ↦ componentEl.innerHTML`; parse
the stored fragment source into a wrapper (the fragment appears here
parsed, as `code : List HNode`); for every descendant element and
every attribute whose value starts with `{` and ends with `}`, look up
the name between the braces: present and the attribute is named
`content` — set the element's `innerHTML` to the value; present
otherwise — set the attribute's value; absent — set the attribute's
value to the literal `"undefined"`.  Finally insert the wrapper's
*first element child* before the placeholder and remove the
placeholder. -/

/-- `attr.value.startsWith("{") && attr.value.endsWith("}")` (for the
one-character affixes this is: first character `{`, last character
`}`; stated over the character list so that it evaluates by kernel
reduction). -/
def isPlaceholderValue (v : String) : Bool :=
  v.data.head? == some '{' && v.data.getLast? == some '}'

/-- `attr.value.substr(1, attr.value.length - 2)`: the name between
the braces (drop the first and last character). -/
def varNameOf (v : String) : String :=
  ⟨(v.data.drop 1).dropLast⟩

/-- The data map of `ComponentFactory.resolve` (lines 19-23): every
placeholder attribute in order, then the reserved `content` key bound
to the placeholder's serialised inner markup (overwriting a `content`
attribute if one was present). -/
def dataMap (placeholderAttrs : List (String × String))
    (placeholderChildren : List HNode) : List (String × String) :=
  cacheSet (placeholderAttrs.foldl (fun m p => cacheSet m p.1 p.2) [])
    "content" (serializeList placeholderChildren)

/-- Substitution on one attribute (lines 33-48, the attribute-value
effect): brace-wrapped and present — replaced by the value unless the
attribute is named `content` (that case only sets `innerHTML`, the
attribute keeps its literal value); brace-wrapped and absent —
replaced by `"undefined"`; otherwise untouched. -/
def substAttr (m : List (String × String)) (p : String × String) :
    String × String :=
  if isPlaceholderValue p.2 then
    match cacheGet m (varNameOf p.2) with
    | some w => if p.1 == "content" then p else (p.1, w)
    | none => (p.1, "undefined")
  else p

/-- The `innerHTML` effect of the attribute loop on one element
(lines 40-42): the last attribute named `content` whose brace-wrapped
name is present in the map sets the element's inner markup. -/
def contentUpdate (m : List (String × String))
    (attrs : List (String × String)) : Option String :=
  attrs.foldl
    (fun acc p =>
      if p.1 == "content" && isPlaceholderValue p.2 then
        match cacheGet m (varNameOf p.2) with
        | some w => some w
        | none => acc
      else acc)
    none

mutual

/-- The whole substitution pass over the compiled fragment: the
`querySelectorAll("*")` snapshot visits every element; an element
whose `innerHTML` is replaced gets the raw markup as its new content
(the markup inserted this way is not in the snapshot and is not
re-processed; the detached former children are processed by the source
but are no longer part of the tree, so the tree result is the same). -/
def substNode (m : List (String × String)) : HNode → HNode
  | .text s => .text s
  | .raw s => .raw s
  | .elem t attrs ch =>
      match contentUpdate m attrs with
      | some w => .elem t (attrs.map (substAttr m)) [.raw w]
      | none => .elem t (attrs.map (substAttr m)) (substList m ch)

def substList (m : List (String × String)) : List HNode → List HNode
  | [] => []
  | n :: ns => substNode m n :: substList m ns

end

/-- `ComponentFactory.resolve` replacement node (lines 53-56): the
wrapper's first element child after substitution
(`wrapper.children[0]!`) is inserted before the placeholder, which is
then removed; `none` models the crash when the compiled fragment has
no element at the top level. -/
def componentResolve (code : List HNode)
    (placeholderAttrs : List (String × String))
    (placeholderChildren : List HNode) : Option HNode :=
  (substList (dataMap placeholderAttrs placeholderChildren) code).find?
    isElemNode

/-! ### Claim C5

The substitution loop of `ComponentFactory.resolve` walks
*attributes* only (`for (const attr of el.attributes)`); a `{...}`
occurrence in text position is never touched, and the `content` value
is injected only through an attribute *named* `content`.  So the
spec's example `<div attr="{v}">{content}</div>` resolves to
`<div attr="A">{content}</div>`, not `<div attr="A">B</div>`. -/

/-- C5 counterexample: for the claim's fragment and placeholder, the
replacement node keeps the literal text `{content}`; it is not the
claimed `<div attr="A">B</div>` (neither with `B` as a text node nor
as raw markup). -/
theorem C5_counterexample_text_placeholder_not_substituted :
    componentResolve [.elem "div" [("attr", "{v}")] [.text "{content}"]]
        [("template", "x"), ("v", "A")] [.text "B"]
      = some (.elem "div" [("attr", "A")] [.text "{content}"])
    ∧ some (HNode.elem "div" [("attr", "A")] [.text "{content}"])
        ≠ some (.elem "div" [("attr", "A")] [.text "B"])
    ∧ some (HNode.elem "div" [("attr", "A")] [.text "{content}"])
        ≠ some (.elem "div" [("attr", "A")] [.raw "B"]) := by
  refine ⟨by decide, by decide, by decide⟩

/-- C5 as amended: resolving the fragment
`<div attr="{v}">{content}</div>` against
`<component template="x" v="A">B</component>` yields
`<div attr="A">{content}</div>` — the attribute placeholder `{v}`
becomes `A` but the text-position `{content}` stays verbatim, because
only attribute values are substituted.  The placeholder's inner markup
`B` is injected only via an attribute *named* `content`: the fragment
`<div attr="{v}" content="{content}"></div>` resolves to a `div` whose
inner markup is `B` (with the `content` attribute keeping its literal
value). -/
theorem C5_component_substitution :
    componentResolve [.elem "div" [("attr", "{v}")] [.text "{content}"]]
        [("template", "x"), ("v", "A")] [.text "B"]
      = some (.elem "div" [("attr", "A")] [.text "{content}"])
    ∧ componentResolve
        [.elem "div" [("attr", "{v}"), ("content", "{content}")] []]
        [("template", "x"), ("v", "A")] [.text "B"]
      = some (.elem "div" [("attr", "A"), ("content", "{content}")]
          [.raw "B"]) := by
  refine ⟨by decide, by decide⟩

/-! ### Claim C6 -/

mutual

/-- Every element of the substituted tree is the image of an element
of the source tree with the same tag and with its attribute list
mapped through `substAttr`. -/
theorem substNode_elem_src (m : List (String × String)) :
    ∀ (nd : HNode) (e' : HNode), e' ∈ elementsOf (substNode m nd) →
      ∃ t attrs ch, HNode.elem t attrs ch ∈ elementsOf nd
        ∧ ∃ ch', e' = HNode.elem t (attrs.map (substAttr m)) ch'
  | .text s, e', h => by simp [substNode, elementsOf] at h
  | .raw s, e', h => by simp [substNode, elementsOf] at h
  | .elem t attrs ch, e', h => by
      rw [substNode] at h
      cases hcu : contentUpdate m attrs with
      | some w =>
          rw [hcu] at h
          simp only [elementsOf, elementsList, List.mem_cons] at h
          rcases h with h | h
          · exact ⟨t, attrs, ch, by simp [elementsOf], ⟨[.raw w], h⟩⟩
          · simp at h
      | none =>
          rw [hcu] at h
          simp only [elementsOf, List.mem_cons] at h
          rcases h with h | h
          · exact ⟨t, attrs, ch, by simp [elementsOf], ⟨substList m ch, h⟩⟩
          · obtain ⟨t', a', c', hmem, hch⟩ := substList_elem_src m ch e' h
            exact ⟨t', a', c',
              by simp only [elementsOf, List.mem_cons]; exact Or.inr hmem, hch⟩

theorem substList_elem_src (m : List (String × String)) :
    ∀ (l : List HNode) (e' : HNode), e' ∈ elementsList (substList m l) →
      ∃ t attrs ch, HNode.elem t attrs ch ∈ elementsList l
        ∧ ∃ ch', e' = HNode.elem t (attrs.map (substAttr m)) ch'
  | [], e', h => by simp [substList, elementsList] at h
  | nd :: ns, e', h => by
      simp only [substList, elementsList, List.mem_append] at h
      rcases h with h | h
      · obtain ⟨t, a, c, hmem, hch⟩ := substNode_elem_src m nd e' h
        exact ⟨t, a, c,
          by simp only [elementsList, List.mem_append]; exact Or.inl hmem, hch⟩
      · obtain ⟨t, a, c, hmem, hch⟩ := substList_elem_src m ns e' h
        exact ⟨t, a, c,
          by simp only [elementsList, List.mem_append]; exact Or.inr hmem, hch⟩

end

/-- C6: during `ComponentFactory.resolve`, every element of the
substituted compiled fragment comes from a source element by mapping
its attributes through `substAttr` under the placeholder's data map
(attributes plus the reserved `content` key); consequently every
source attribute whose value is of the exact form `{name}` with `name`
absent from that data map appears on the resulting element with the
literal value `"undefined"`. -/
theorem C6_unknown_variable_resolves_to_undefined
    (pAttrs : List (String × String)) (pCh : List HNode)
    (code : List HNode) (e' : HNode)
    (h : e' ∈ elementsList (substList (dataMap pAttrs pCh) code)) :
    ∃ t attrs ch, HNode.elem t attrs ch ∈ elementsList code
      ∧ (∃ ch', e' = HNode.elem t
          (attrs.map (substAttr (dataMap pAttrs pCh))) ch')
      ∧ ∀ a v, (a, v) ∈ attrs → isPlaceholderValue v = true →
          cacheGet (dataMap pAttrs pCh) (varNameOf v) = none →
          (a, "undefined") ∈ attrsOfNode e' := by
  obtain ⟨t, attrs, ch, hmem, ⟨ch', heq⟩⟩ :=
    substList_elem_src (dataMap pAttrs pCh) code e' h
  refine ⟨t, attrs, ch, hmem, ⟨ch', heq⟩, ?_⟩
  intro a v hav hph habs
  have hsub : substAttr (dataMap pAttrs pCh) (a, v) = (a, "undefined") := by
    simp [substAttr, hph, habs]
  have : (a, "undefined") ∈ attrs.map (substAttr (dataMap pAttrs pCh)) := by
    rw [← hsub]; exact List.mem_map_of_mem _ hav
  rw [heq]
  simpa [attrsOfNode] using this

/-- Witness for `C6_unknown_variable_resolves_to_undefined`: a
fragment with the unknown attribute placeholder `{missing}` resolved
against `<component template="x"></component>`. -/
theorem C6_unknown_variable_witness :
    (HNode.elem "div" [("foo", "undefined")] []
        ∈ elementsList (substList (dataMap [("template", "x")] [])
            [.elem "div" [("foo", "{missing}")] []]))
    ∧ ∃ t attrs ch,
        HNode.elem t attrs ch
            ∈ elementsList [HNode.elem "div" [("foo", "{missing}")] []]
          ∧ (∃ ch', HNode.elem "div" [("foo", "undefined")] []
              = HNode.elem t
                  (attrs.map (substAttr (dataMap [("template", "x")] []))) ch')
          ∧ ∀ a v, (a, v) ∈ attrs → isPlaceholderValue v = true →
              cacheGet (dataMap [("template", "x")] []) (varNameOf v) = none →
              (a, "undefined")
                ∈ attrsOfNode (HNode.elem "div" [("foo", "undefined")] []) :=
  ⟨by decide,
    C6_unknown_variable_resolves_to_undefined [("template", "x")] []
      [.elem "div" [("foo", "{missing}")] []]
      (HNode.elem "div" [("foo", "undefined")] []) (by decide)⟩

/-! ## TemplateFactory (src/DOM/TemplateFactory.ts)

`resolve(templateEl)` (lines 28-86): (1) re-parse the placeholder's
serialised children in XML mode and collect the data map with the
recursive helper `res`; (2) evaluate every `{{ ... }}` occurrence of
the stored source with the data map keys bound as `$`-prefixed
variables (the dynamic evaluation itself is a platform primitive; what
the claims use is which bindings it receives); (3) write the result
into a detached wrapper and move the wrapper's element children in
front of the placeholder, then remove the placeholder. -/

/-- A template data-map value: a single string, or the ordered list a
repeated child tag accumulates (`string | Array<string>`). -/
inductive DVal where
  | str (s : String)
  | arr (vs : List String)
deriving DecidableEq, Repr

/-- JS `Map.get` for the template data map. -/
def dmapGet (m : List (String × DVal)) (k : String) : Option DVal :=
  (m.find? (·.1 == k)).map (·.2)

/-- JS `Map.set` for the template data map. -/
def dmapSet (m : List (String × DVal)) (k : String) (v : DVal) :
    List (String × DVal) :=
  if m.any (·.1 == k) then
    m.map (fun p => if p.1 == k then (k, v) else p)
  else
    m ++ [(k, v)]

/-- The leaf update of `res` (TemplateFactory.ts lines 39-49): first
value stored plain; a second value for the same tag turns the entry
into a two-element list; further values are pushed onto the list. -/
def dmapUpdate (m : List (String × DVal)) (k : String) (txt : String) :
    List (String × DVal) :=
  match dmapGet m k with
  | none => dmapSet m k (.str txt)
  | some (.arr vs) => dmapSet m k (.arr (vs ++ [txt]))
  | some (.str v) => dmapSet m k (.arr [v, txt])

/-- `el.children`: the element children of a node list. -/
def elemChildren (ch : List HNode) : List HNode :=
  ch.filter isElemNode

mutual

/-- `textContent` of a node (concatenated text of the subtree; an
element's `nodeValue` is `null`, so the source's
`el.nodeValue ?? el.textContent ?? el.innerHTML` is `textContent`). -/
def textContent : HNode → String
  | .text s => s
  | .raw s => s
  | .elem _ _ ch => textContentList ch

def textContentList : List HNode → String
  | [] => ""
  | n :: ns => textContent n ++ textContentList ns

end

mutual

/-- One step of `res` (TemplateFactory.ts lines 31-54) on a child
node: `res` iterates `.children`, so only elements are processed; an
element with element children is recursed into, a leaf element with
non-empty text contributes a data-map entry under its tag name. -/
def resStep (m : List (String × DVal)) : HNode → List (String × DVal)
  | .elem t _ ch =>
      if (elemChildren ch).isEmpty then
        -- `const txt = el.nodeValue ?? el.textContent ?? el.innerHTML;
        --  if (txt) { ... }`
        if textContentList ch = "" then m
        else dmapUpdate m t (textContentList ch)
      else
        resChildren m ch
  | .text _ => m
  | .raw _ => m

/-- `for (const el of (resEl as Element).children)`, threading the
map left to right (non-element nodes are not in `.children`; they
contribute nothing). -/
def resChildren (m : List (String × DVal)) :
    List HNode → List (String × DVal)
  | [] => m
  | el :: rest => resChildren (resStep m el) rest

end

/-- The data map `resolve` builds from a template placeholder's
children: `res` starts on the XML document
`<template>…children…</template>`, whose single element child is the
synthetic root. -/
def buildDataMap (placeholderChildren : List HNode) :
    List (String × DVal) :=
  resChildren [] [HNode.elem "template" [] placeholderChildren]

/-- The variable bindings `resolveTemplateString` (lines 11-23) hands
to each `{{ ... }}` evaluation: every data-map key prefixed with `$`,
paired positionally with its value
(`new Function(...keys.map(x => "$" + x), ...).call(window,
...data.values())`). -/
def templateBindings (m : List (String × DVal)) : List (String × DVal) :=
  m.map (fun p => ("$" ++ p.1, p.2))

/-! ### Claim C9 -/

/-- C9: a template placeholder with two same-tag children
`<t>a</t><t>b</t>` (non-empty texts) yields the data-map entry
`t ↦ ["a","b"]` in document order, and that list is among the
variable bindings of the expression evaluation as `$t`. -/
theorem C9_repeated_tags_accumulate (t a b : String)
    (ha : a ≠ "") (hb : b ≠ "") :
    dmapGet (buildDataMap [.elem t [] [.text a], .elem t [] [.text b]]) t
        = some (.arr [a, b])
      ∧ ("$" ++ t, DVal.arr [a, b])
          ∈ templateBindings
              (buildDataMap [.elem t [] [.text a], .elem t [] [.text b]]) := by
  have hmap : buildDataMap [.elem t [] [.text a], .elem t [] [.text b]]
      = [(t, .arr [a, b])] := by
    simp [buildDataMap, resChildren, resStep, elemChildren, isElemNode,
      textContentList, textContent, dmapUpdate, dmapGet, dmapSet, ha, hb]
  rw [hmap]
  constructor
  · simp [dmapGet]
  · simp [templateBindings]

/-- Witness for `C9_repeated_tags_accumulate` at
`<var1>a</var1><var1>b</var1>`. -/
theorem C9_repeated_tags_accumulate_witness :
    dmapGet (buildDataMap
        [.elem "var1" [] [.text "a"], .elem "var1" [] [.text "b"]]) "var1"
        = some (.arr ["a", "b"])
      ∧ ("$var1", DVal.arr ["a", "b"])
          ∈ templateBindings (buildDataMap
              [.elem "var1" [] [.text "a"], .elem "var1" [] [.text "b"]]) := by
  have h := C9_repeated_tags_accumulate "var1" "a" "b"
    (by decide) (by decide)
  simpa using h

/-! ### Claim C4

The insertion loop of `resolve` (TemplateFactory.ts lines 73-79):

      for (const ch of Array.from(wrapper.children)) {
        if (ch.tagName === "SCRIPT") {
          ch.remove();
        }
        parent.insertBefore(ch, templateEl);
      }

`ch.remove()` only detaches the script from the throwaway wrapper;
the loop body then falls through to `insertBefore`, which moves the
very same node into the document.  There is no `continue`: the guard
is dead code, and script-tagged nodes are inserted like any other. -/

/-- One iteration of the insertion loop over the snapshot: the wrapper
is tracked to model `ch.remove()` (a script is first detached from the
wrapper), then `insertBefore` moves the node out of wherever it is and
appends it to the content sitting before the placeholder. -/
def templateInsertStep (acc : List HNode × List HNode) (ch : HNode) :
    List HNode × List HNode :=
  let wrapper := if tagOf ch == "SCRIPT" then acc.1.erase ch else acc.1
  (wrapper.erase ch, acc.2 ++ [ch])

/-- The parent's child list after `resolve`'s insertion phase: the
nodes before the placeholder, then the loop's insertions, then (the
placeholder having been removed by `templateEl.remove()`) the nodes
after it. -/
def templateResolveInsert (wrapperChildren before after : List HNode) :
    List HNode :=
  before ++ (wrapperChildren.foldl templateInsertStep (wrapperChildren, [])).2
    ++ after

/-- C4: the claim fails on the code.  For a compiled output consisting
of a `<script>` element and a `<div>`, the insertion phase puts *both*
— script included — before the placeholder's old position: `remove()`
only detaches the script from the wrapper, and the loop inserts it
anyway. -/
theorem C4_script_node_is_inserted :
    templateResolveInsert
        [.elem "SCRIPT" [] [.text "doEvil()"], .elem "DIV" [] []]
        [.elem "P" [] []] [.elem "FOOTER" [] []]
      = [.elem "P" [] [], .elem "SCRIPT" [] [.text "doEvil()"],
         .elem "DIV" [] [], .elem "FOOTER" [] []]
    ∧ HNode.elem "SCRIPT" [] [.text "doEvil()"]
        ∈ templateResolveInsert
            [.elem "SCRIPT" [] [.text "doEvil()"], .elem "DIV" [] []]
            [.elem "P" [] []] [.elem "FOOTER" [] []] := by
  refine ⟨by decide, by decide⟩

/-! ## Components resolver loop (src/DOM/Components.ts)

`resolveComponents(root)` (lines 56-91) loops: take a static snapshot
of all `component[template]` placeholders under `root`; resolve each
one — `ComponentFactory.resolve` removes the triggering placeholder
(ComponentFactory.ts line 56) and splices in its fragment's nodes,
whose own placeholders are exactly the fragment body's placeholders —
then rescan; stop when the scan finds none.

Abstraction: a state is the list of unresolved placeholders under the
root in document order, each identified by its fragment name; the
fragment environment `f` maps a name to the (finitely many) placeholder
names occurring in that fragment's body (the claim presupposes every
referenced fragment exists and fetches).  Resolving one placeholder

`n` replaces it by `f n`; one iteration of the `while` loop resolves
every placeholder of the snapshot, so it maps the state `s` to
`expandOnce f s`; newly spliced-in placeholders are not in the
snapshot and are found by the rescan. -/

/-- One pass of the `while (updateArr().length > 0)` loop: every
placeholder of the snapshot is resolved in order, each replaced by its
fragment's placeholder names. -/
def expandOnce (f : String → List String) : List String → List String
  | [] => []
  | n :: ns => f n ++ expandOnce f ns

/-- `k` passes of the loop. -/
def expandIter (f : String → List String) : Nat → List String → List String
  | 0, s => s
  | k + 1, s => expandIter f k (expandOnce f s)

theorem expandOnce_append (f : String → List String) (s t : List String) :
    expandOnce f (s ++ t) = expandOnce f s ++ expandOnce f t := by
  induction s with
  | nil => rfl
  | cons n ns ih => simp [expandOnce, ih]

theorem expandIter_nil (f : String → List String) (k : Nat) :
    expandIter f k [] = [] := by
  induction k with
  | zero => rfl
  | succ k ih => simpa [expandIter, expandOnce] using ih

theorem expandIter_append (f : String → List String) (k : Nat) :
    ∀ s t, expandIter f k (s ++ t)
      = expandIter f k s ++ expandIter f k t := by
  induction k with
  | zero => intro s t; rfl
  | succ k ih =>
      intro s t
      simp [expandIter, expandOnce_append, ih]

theorem expandIter_add (f : String → List String) (k j : Nat) :
    ∀ s, expandIter f (k + j) s = expandIter f j (expandIter f k s) := by
  induction k generalizing j with
  | zero => intro s; simp [expandIter]
  | succ k ih =>
      intro s
      have : k + 1 + j = (k + j) + 1 := by omega
      rw [this]
      show expandIter f (k + j) (expandOnce f s) = _
      rw [ih j (expandOnce f s)]
      rfl

theorem expandIter_empty_mono (f : String → List String) (k K : Nat)
    (hk : k ≤ K) (s : List String) (h : expandIter f k s = []) :
    expandIter f K s = [] := by
  have : K = k + (K - k) := by omega
  rw [this, expandIter_add, h, expandIter_nil]

/-- If every placeholder of a list individually expands away in some
number of passes, the whole list does (take the maximum). -/
theorem expandIter_list_empty (f : String → List String) :
    ∀ l : List String, (∀ m ∈ l, ∃ k, expandIter f k [m] = []) →
      ∃ K, expandIter f K l = [] := by
  intro l
  induction l with
  | nil => exact fun _ => ⟨0, rfl⟩
  | cons m l ih =>
      intro h
      obtain ⟨k1, h1⟩ := h m (by simp)
      obtain ⟨k2, h2⟩ := ih (fun x hx => h x (by simp [hx]))
      refine ⟨max k1 k2, ?_⟩
      have : m :: l = [m] ++ l := rfl
      rw [this, expandIter_append,
        expandIter_empty_mono f k1 (max k1 k2) (Nat.le_max_left _ _) _ h1,
        expandIter_empty_mono f k2 (max k1 k2) (Nat.le_max_right _ _) _ h2]
      rfl

/-- C7: for every fragment environment whose names live in a finite
set `U` closed under references, in which no name reaches itself
through the reference relation (directly or indirectly), the rescan
loop of `Components.resolveComponents` terminates from any initial
placeholder list over `U`: some number of passes reaches the empty
placeholder list, because each resolution removes the triggering
placeholder and introduces only the fragment's own placeholders. -/
theorem C7_resolveComponents_terminates (f : String → List String)
    (U : Finset String)
    (hclosed : ∀ n ∈ U, ∀ m ∈ f n, m ∈ U)
    (hacyclic : ∀ n ∈ U,
      ¬ Relation.TransGen (fun m n => m ∈ f n) n n)
    (init : List String) (hinit : ∀ n ∈ init, n ∈ U) :
    ∃ k, expandIter f k init = [] := by
  -- the direct-constituent relation, restricted to the finite closed set
  set r : String → String → Prop := fun m n => m ∈ f n with hr
  let α := { x : String // x ∈ U }
  let r' : α → α → Prop := fun a b => r a.1 b.1
  haveI : IsTrans α (Relation.TransGen r') :=
    ⟨fun _ _ _ hab hbc => hab.trans hbc⟩
  haveI : IsIrrefl α (Relation.TransGen r') := by
    refine ⟨fun a h => hacyclic a.1 a.2 ?_⟩
    exact Relation.TransGen.lift Subtype.val (fun _ _ hxy => hxy) h
  have hwf : WellFounded r' :=
    Subrelation.wf (fun h => Relation.TransGen.single h)
      (Finite.wellFounded_of_trans_of_irrefl (Relation.TransGen r'))
  -- each single placeholder over U expands away
  have key : ∀ a : α, ∃ k, expandIter f k [a.1] = [] := by
    intro a
    refine hwf.induction (C := fun b => ∃ k, expandIter f k [b.1] = []) a ?_
    intro x ih
    have hchild : ∀ m ∈ f x.1, ∃ k, expandIter f k [m] = [] := fun m hm =>
      ih ⟨m, hclosed x.1 x.2 m hm⟩ hm
    obtain ⟨K, hK⟩ := expandIter_list_empty f (f x.1) hchild
    refine ⟨K + 1, ?_⟩
    show expandIter f K (expandOnce f [x.1]) = []
    have hone : expandOnce f [x.1] = f x.1 := by simp [expandOnce]
    rw [hone, hK]
  exact expandIter_list_empty f init (fun n hn => key ⟨n, hinit n hn⟩)

/-- Witness for `C7_resolveComponents_terminates`: the one-fragment
environment whose fragment `"a"` contains no placeholders. -/
theorem C7_resolveComponents_terminates_witness :
    ∃ k, expandIter (fun _ => []) k ["a"] = [] :=
  C7_resolveComponents_terminates (fun _ => []) {"a"}
    (by intro n _ m hm; simp at hm)
    (by
      intro n _ h
      cases h with
      | single hr => simp at hr
      | tail _ hr => simp at hr)
    ["a"] (by intro n hn; simpa using hn)

end Photon
